import Mathlib

/-!
Verification of the `ed-message` header codec (header.js together with its
utilities `stringByteLength.js` and `validateEnumValue.js`).

Modelling conventions:

* A JavaScript string is modelled as its list of UTF-16 code units
  (`List Nat`, each unit below `0x10000`), matching `charCodeAt`.
* A JavaScript number is modelled as a rational (`ℚ`).  `NaN` and the
  infinities are outside the model; every comparison and arithmetic step
  performed by the source on the values considered here is exact, so the
  rational model agrees with IEEE-754 doubles on all inputs used below.
* The header's backing `Buffer` is modelled region by region, in the layout
  fixed by the source (byte 0; the UInt16BE at offset 1; the UInt32BE at
  offset 3; the two DoubleBE fields at offsets 7 and 15, modelled by the
  written numeric value since an 8-byte write followed by the matching read
  at the same offset is bit-exact; the byte regions at offsets 23, 35 and 47).
* Failures (`throw new Error(...)` and the out-of-range assertions of the
  Node buffer write primitives) are modelled with `Except`.
-/

/-- Surrogate classification of a UTF-16 code unit: high (lead) surrogate. -/
abbrev isLeadSurrogate (c : Nat) : Prop := 0xD800 ≤ c ∧ c ≤ 0xDBFF

/-- Surrogate classification of a UTF-16 code unit: low (trail) surrogate. -/
abbrev isTrailSurrogate (c : Nat) : Prop := 0xDC00 ≤ c ∧ c ≤ 0xDFFF

/-- Extra bytes (beyond the base count of one) that the loop body of
`stringByteLength` adds for one code unit (`s++` and `s += 2` branches). -/
def sblExtra (code : Nat) : Nat :=
  if 0x7f < code ∧ code ≤ 0x7ff then 1
  else if 0x7ff < code ∧ code ≤ 0xffff then 2
  else 0

/-- The loop of `stringByteLength` (src/utils/stringByteLength.js).  The
source iterates the index `i` from `str.length - 1` down to `0`, decrementing
`i` once more when the visited unit is a trail surrogate; we model exactly
that traversal as structural recursion over the reversed code-unit list. -/
def sblLoop : List Nat → Nat
  | [] => 0
  | code :: rest =>
    sblExtra code +
      (if isTrailSurrogate code then
        match rest with
        | [] => 0
        | _ :: rest2 => sblLoop rest2
      else sblLoop rest)

/-- `stringByteLength` (src/utils/stringByteLength.js): `s` starts at
`str.length` and the loop adds the extra byte counts. -/
def stringByteLength (str : List Nat) : Nat :=
  str.length + sblLoop str.reverse

/-- Byte count that a single code unit contributes to a UTF-8 encoding when
it does not take part in a surrogate pair (claim wording: below `0x80` one
byte, `[0x80, 0x7FF]` two bytes, `[0x800, 0xFFFF]` three bytes). -/
def utf8UnitBytes (c : Nat) : Nat :=
  if c < 0x80 then 1 else if c ≤ 0x7ff then 2 else 3

/-- Specification-side UTF-8 byte length of a code-unit sequence, following
the claim's wording: each unit contributes `utf8UnitBytes` bytes, except that
a lead surrogate immediately followed by a trail surrogate (one code point
above `0xFFFF`) contributes 4 bytes in total, not 3+3. -/
def utf8SpecLen : List Nat → Nat
  | [] => 0
  | [c] => utf8UnitBytes c
  | c :: d :: rest =>
    if isLeadSurrogate c ∧ isTrailSurrogate d then 4 + utf8SpecLen rest
    else utf8UnitBytes c + utf8SpecLen (d :: rest)

/-- A code-unit sequence in which every trail surrogate is immediately
preceded by a lead surrogate that is not itself paired away.  This is the
hypothesis under which the source's byte counter agrees with the per-unit
UTF-8 byte count. -/
def trailsPaired (str : List Nat) : Prop :=
  ∀ i, i < str.length → isTrailSurrogate (str.getD i 0) →
    0 < i ∧ isLeadSurrogate (str.getD (i - 1) 0)

/-- Well-formed UTF-16: every unit is below `0x10000` and surrogates occur
only as lead-trail pairs.  Exactly the strings a JavaScript engine encodes
to UTF-8 without replacement characters. -/
def wellFormedUtf16 : List Nat → Bool
  | [] => true
  | c :: rest =>
    if isLeadSurrogate c then
      match rest with
      | [] => false
      | d :: rest2 => decide (isTrailSurrogate d) && wellFormedUtf16 rest2
    else
      decide (c < 0x10000) && !(decide (isTrailSurrogate c)) && wellFormedUtf16 rest

/-- UTF-8 bytes of the replacement character U+FFFD, which Node substitutes
for an unpaired surrogate when encoding a string into a `Buffer`. -/
def utf8Repl : List Nat := [0xEF, 0xBF, 0xBD]

/-- UTF-8 bytes of a supplementary code point (at least `0x10000`). -/
def codePointBytes (cp : Nat) : List Nat :=
  [0xF0 + cp / 0x40000, 0x80 + cp / 0x1000 % 64, 0x80 + cp / 64 % 64, 0x80 + cp % 64]

/-- UTF-8 encoding of a UTF-16 code-unit sequence, as performed by
`Buffer.prototype.write` with the default `utf8` encoding: surrogate pairs
become one four-byte sequence, unpaired surrogates become U+FFFD. -/
def utf8Encode : List Nat → List Nat
  | [] => []
  | [c] =>
    if c < 0x80 then [c]
    else if c ≤ 0x7ff then [0xC0 + c / 64, 0x80 + c % 64]
    else if isLeadSurrogate c ∨ isTrailSurrogate c then utf8Repl
    else [0xE0 + c / 4096, 0x80 + c / 64 % 64, 0x80 + c % 64]
  | c :: d :: rest =>
    if c < 0x80 then c :: utf8Encode (d :: rest)
    else if c ≤ 0x7ff then (0xC0 + c / 64) :: (0x80 + c % 64) :: utf8Encode (d :: rest)
    else if isLeadSurrogate c then
      if isTrailSurrogate d then
        codePointBytes (0x10000 + (c - 0xD800) * 0x400 + (d - 0xDC00)) ++ utf8Encode rest
      else utf8Repl ++ utf8Encode (d :: rest)
    else if isTrailSurrogate c then utf8Repl ++ utf8Encode (d :: rest)
    else (0xE0 + c / 4096) :: (0x80 + c / 64 % 64) :: (0x80 + c % 64) :: utf8Encode (d :: rest)

/-- A UTF-8 continuation byte. -/
abbrev utf8Cont (b : Nat) : Prop := 0x80 ≤ b ∧ b < 0xC0

/-- Code units produced when decoding one code point: a supplementary code
point is reported back to JavaScript as a surrogate pair. -/
def decodedUnits (cp : Nat) : List Nat :=
  if cp ≤ 0xFFFF then [cp]
  else [0xD800 + (cp - 0x10000) / 0x400, 0xDC00 + (cp - 0x10000) % 0x400]

/-- The decoding loop of `Buffer.prototype.toString('utf8', ...)`, one byte
at a time: `need` counts the continuation bytes still expected and `acc`
accumulates the code point so far.  An ill-formed sequence yields U+FFFD;
every theorem below only ever decodes well-formed encodings, which never
reach those branches. -/
def utf8DecodeLoop : Nat → Nat → List Nat → List Nat
  | need, _, [] => if need = 0 then [] else [0xFFFD]
  | 0, _, b :: rest =>
    if b < 0x80 then b :: utf8DecodeLoop 0 0 rest
    else if b < 0xC0 then 0xFFFD :: utf8DecodeLoop 0 0 rest
    else if b < 0xE0 then utf8DecodeLoop 1 (b - 0xC0) rest
    else if b < 0xF0 then utf8DecodeLoop 2 (b - 0xE0) rest
    else utf8DecodeLoop 3 (b - 0xF0) rest
  | need + 1, acc, b :: rest =>
    if utf8Cont b then
      if need = 0 then decodedUnits (acc * 64 + (b - 0x80)) ++ utf8DecodeLoop 0 0 rest
      else utf8DecodeLoop need (acc * 64 + (b - 0x80)) rest
    else 0xFFFD :: utf8DecodeLoop 0 0 rest

/-- UTF-8 decoding of a byte sequence back into UTF-16 code units, as
performed by `Buffer.prototype.toString('utf8', ...)`. -/
def utf8Decode (bs : List Nat) : List Nat := utf8DecodeLoop 0 0 bs

example : stringByteLength [] = 0 := by decide
example : stringByteLength [0x61, 0x62, 0x63] = 3 := by decide
example : stringByteLength [0xD83D, 0xDE00] = 4 := by decide
example : stringByteLength [0x800, 0xDC00] = 4 := by decide
example : utf8SpecLen [0x800, 0xDC00] = 6 := by decide
example : utf8Decode (utf8Encode [0x61, 0x7FF, 0x800, 0xD83D, 0xDE00]) =
    [0x61, 0x7FF, 0x800, 0xD83D, 0xDE00] := by decide

/-- A JavaScript value, restricted to the types that reach the header code:
strings (as UTF-16 code-unit lists), numbers (as exact rationals), booleans,
and `undefined` for missing arguments. -/
inductive JSVal where
  | vstr (s : List Nat)
  | vnum (q : ℚ)
  | vbool (b : Bool)
  | vundef
deriving DecidableEq

/-- The distinct failures the header code can raise: one per `throw new
Error(...)` site, `typeError` for a JavaScript property access on
`undefined`, and `rangeError` for the out-of-range assertions of the Node
buffer write primitives. -/
inductive HeaderError where
  | arity (n : Nat)
  | typeError
  | eventTypeInvalid
  | granularityInvalid
  | eventSourceInvalid
  | payloadInvalid
  | occurrenceTimeInvalid
  | detectionTimeInvalid
  | eventIdInvalid
  | composedInvalid
  | rangeError
deriving DecidableEq

/-- Code units of a Lean string literal; used only to write down concrete
ASCII strings conveniently. -/
def strUnits (s : String) : List Nat := s.data.map Char.toNat

/-- Truncation of a non-negative rational toward zero, as the bitwise
operations of the Node buffer byte writes perform on an in-range number. -/
def ratTruncToNat (q : ℚ) : Nat := (q.num / (q.den : Int)).toNat

/-- The subset of the JavaScript `ToNumber` coercion on strings exercised by
the source (only the comparison `eventType > (65535 - 47)` coerces): the
empty string converts to `0`, a plain decimal-digit string to its value, and
any other string to `NaN` (modelled as `none`; every comparison against
`NaN` is false). -/
def jsToNumber (s : List Nat) : Option ℚ :=
  if s.length = 0 then some 0
  else if s.all (fun c => 0x30 ≤ c && c ≤ 0x39) then
    some ((s.foldl (fun acc c => 10 * acc + (c - 0x30)) 0 : Nat) : ℚ)
  else none

/-- The JavaScript comparison `v > bound` for a numeric bound: strings are
coerced with `ToNumber`, booleans to 0/1, `undefined` to `NaN`; a comparison
involving `NaN` is false. -/
def jsGtNum (v : JSVal) (bound : ℚ) : Bool :=
  match v with
  | .vstr s =>
    match jsToNumber s with
    | some q => decide (bound < q)
    | none => false
  | .vnum q => decide (bound < q)
  | .vbool b => decide (bound < (if b then (1 : ℚ) else 0))
  | .vundef => false

/-- The numeric granularity code carried by the (already enum-validated)
temporalGranularity argument, as the shift `temporalGranularity << 4`
coerces it; every value in the granularity table is a small non-negative
integer, for which the `ToInt32` coercion is plain truncation. -/
def granCode (v : JSVal) : Nat :=
  match v with
  | .vnum q => ratTruncToNat q
  | _ => 0

/-- `validateEnumValue` (the enum membership validator): a fold over the
enumerable values, setting the flag when `value === enumToCheck[i]`. -/
def validateEnumValue (value : JSVal) (enumToCheck : List JSVal) : Bool :=
  enumToCheck.foldl (fun isValid v => if value = v then true else isValid) false

/-- Modelled from the spec: the external temporal-granularity lookup table
(npm package `ed-temporal-granularity`), which is not part of this
repository.  The spec describes it as an externally defined, fixed, ordered
set of named entries, codes fitting in 4 bits; the repository's test pins
the entry `second ↦ 2` with name `"second"`.  The remaining entries are a
plausible fixed choice consistent with everything the spec and tests say. -/
def granularityTable : List (Nat × List Nat) :=
  [(0, strUnits "microsecond"), (1, strUnits "millisecond"), (2, strUnits "second"),
   (3, strUnits "minute"), (4, strUnits "hour"), (5, strUnits "day"),
   (6, strUnits "month"), (7, strUnits "year")]

/-- Modelled from the spec: the enumerable own values of the granularity
object, as `for (var i in enumToCheck)` visits them in `validateEnumValue`.
Only the numeric codes can compare `===`-equal to a primitive candidate
(the `properties` sub-object equals no primitive), so they are the values
listed. -/
def granularityEnumValues : List JSVal :=
  granularityTable.map (fun e => JSVal.vnum (e.1 : ℚ))

/-- The backing buffer of one header, region by region in the source's
layout: `byte0` is the bit-packed first byte; `hlen` the UInt16BE at offset
1 and `plen` the UInt32BE at offset 3, each modelled by the stored value
(the big-endian bytes are recoverable from it); `occ` and `det` the DoubleBE
fields at offsets 7 and 15, modelled by the written number; `evId`, `evSrc`
and `evType` the byte regions at offsets 23, 35 and 47. -/
structure HeaderBuffer where
  byte0 : Nat
  hlen : Nat
  plen : Nat
  occ : ℚ
  det : ℚ
  evId : List Nat
  evSrc : List Nat
  evType : List Nat
deriving DecidableEq

/-- Total length in bytes of the modelled buffer: the fixed numeric regions
occupy 1+2+4+8+8 = 23 bytes, followed by the three byte regions. -/
def bufLength (h : HeaderBuffer) : Nat :=
  23 + h.evId.length + h.evSrc.length + h.evType.length

/-- `Buffer.prototype.write(string, offset)` into a fixed region: the
encoded bytes overwrite the front of the region, truncated at the region
end, and bytes past the written prefix keep their previous contents.  (For
an ill-formed UTF-16 string whose encoded length differs from
`stringByteLength`, the real write could also spill past the region into
the adjacent one; every theorem below writes only strings whose encoding
exactly fills the region, where no spill can occur.) -/
def writeBytes (region : List Nat) (bytes : List Nat) : List Nat :=
  (bytes.take region.length ++ region.drop bytes.length).take region.length

/-- The constructor `Header(eventType, temporalGranularity, eventSource,
isComposed)` invoked with `new`, on an explicit argument list (so that
`arguments.length` is the list length and missing parameters are
`undefined`).  Checks and writes occur in source order:
the arity test; the (operator-precedence-bugged) eventType test
`typeof eventType != 'string' && (eventType.length === 0) ||
eventType > (65535 - 47)`; buffer allocation and the `writeUInt16BE` of the
buffer length (whose range assertion fails when the length exceeds 65535,
and which a non-string eventType reaches with a `NaN` buffer size, ending in
the same range assertion); the granularity membership test and the `|=` of
the shifted code (byte store masked to 8 bits); the eventSource test and
write; and the optional isComposed bit flip. -/
def Header (args : List JSVal) : Except HeaderError HeaderBuffer :=
  let eventType := args.getD 0 .vundef
  let temporalGranularity := args.getD 1 .vundef
  let eventSource := args.getD 2 .vundef
  let isComposedArg := args.getD 3 .vundef
  if args.length < 3 ∨ 4 < args.length then .error (.arity args.length)
  else
    match eventType with
    | .vundef => .error .typeError
    | .vnum q =>
      if jsGtNum (.vnum q) 65488 then .error .eventTypeInvalid
      else .error .rangeError
    | .vbool b =>
      if jsGtNum (.vbool b) 65488 then .error .eventTypeInvalid
      else .error .rangeError
    | .vstr et =>
      if jsGtNum (.vstr et) 65488 then .error .eventTypeInvalid
      else
        let n := stringByteLength et
        if 65535 < 47 + n then .error .rangeError
        else if !validateEnumValue temporalGranularity granularityEnumValues then
          .error .granularityInvalid
        else
          let b0 := (1 ||| (granCode temporalGranularity <<< 4)) % 256
          match eventSource with
          | .vstr src =>
            if stringByteLength src ≠ 12 then .error .eventSourceInvalid
            else
              let b0' :=
                if args.length = 4 then
                  match isComposedArg with
                  | .vbool b => if (!decide (b0 &&& 8 ≠ 0)) = b then b0 ^^^ 8 else b0
                  | _ => b0
                else b0
              .ok { byte0 := b0', hlen := 47 + n, plen := 0, occ := 0, det := 0,
                    evId := List.replicate 12 0,
                    evSrc := writeBytes (List.replicate 12 0) (utf8Encode src),
                    evType := writeBytes (List.replicate n 0) (utf8Encode et) }
          | _ => .error .eventSourceInvalid

/-- Invoking `Header` as a plain function, without `new`: the guard
`if (!(this instanceof Header)) return new Header(eventType,
temporalGranularity, eventSource, isComposed)` forwards exactly the four
named parameters, so the recursive call always receives four arguments
(missing ones as `undefined`, extra ones dropped). -/
def HeaderNoNew (args : List JSVal) : Except HeaderError HeaderBuffer :=
  Header [args.getD 0 .vundef, args.getD 1 .vundef, args.getD 2 .vundef, args.getD 3 .vundef]

/-- `getProtocolVersion`: the low three bits of byte 0. -/
def getProtocolVersion (h : HeaderBuffer) : Nat := h.byte0 &&& 7

/-- `getHeaderLength`: `readUInt16BE(1)`, the stored 16-bit value. -/
def getHeaderLength (h : HeaderBuffer) : Nat := h.hlen

/-- `getPayloadLength`: `readUInt32BE(3)`, the stored 32-bit value. -/
def getPayloadLength (h : HeaderBuffer) : Nat := h.plen

/-- `getTemporalGranularity`: byte 0 shifted right four bits. -/
def getTemporalGranularity (h : HeaderBuffer) : Nat := h.byte0 >>> 4

/-- `getTemporalGranularityName`: `granularity.properties[buffer[0] >> 4]
.name`; when the code has no entry the property access fails (modelled as
`none`) rather than returning a name. -/
def getTemporalGranularityName (h : HeaderBuffer) : Option (List Nat) :=
  granularityTable.lookup (h.byte0 >>> 4)

/-- `isComposed`: `Boolean(buffer[0] & 8)`. -/
def isComposed (h : HeaderBuffer) : Bool := decide (h.byte0 &&& 8 ≠ 0)

/-- `getEventType`: `buffer.toString('utf8', 47, getHeaderLength())`. -/
def getEventType (h : HeaderBuffer) : List Nat :=
  utf8Decode (h.evType.take (h.hlen - 47))

/-- `getOccurrenceTime`: `readDoubleBE(7)`. -/
def getOccurrenceTime (h : HeaderBuffer) : ℚ := h.occ

/-- `getDetectionTime`: `readDoubleBE(15)`. -/
def getDetectionTime (h : HeaderBuffer) : ℚ := h.det

/-- `getEventId`: `buffer.toString('utf8', 23, 35)`. -/
def getEventId (h : HeaderBuffer) : List Nat := utf8Decode h.evId

/-- `getEventSource`: `buffer.toString('utf8', 35, 47)`. -/
def getEventSource (h : HeaderBuffer) : List Nat := utf8Decode h.evSrc

/-- `setPayloadLength(n)`: rejects non-numbers and numbers above
4294967295 with the setter's own error; the subsequent `writeUInt32BE`
asserts the lower bound, so a negative number fails its range check; an
in-range number is written with the bitwise truncation of the byte writes
(a non-integer is silently truncated toward zero). -/
def setPayloadLength (h : HeaderBuffer) (v : JSVal) : Except HeaderError HeaderBuffer :=
  match v with
  | .vnum q =>
    if decide ((4294967295 : ℚ) < q) then .error .payloadInvalid
    else if decide (q < 0) then .error .rangeError
    else .ok { h with plen := ratTruncToNat q }
  | _ => .error .payloadInvalid

/-- `setOccurrenceTime(t)`: rejects non-numbers and numbers above the
literal `2E+63 - 1`, i.e. two times ten to the 63rd minus one (not
two to the 63rd); an accepted number is written as DoubleBE at offset 7.
(As a double the literal rounds to 2e63; no theorem below probes a value
between the two, so the exact rational literal is faithful.) -/
def setOccurrenceTime (h : HeaderBuffer) (v : JSVal) : Except HeaderError HeaderBuffer :=
  match v with
  | .vnum q =>
    if decide ((1999999999999999999999999999999999999999999999999999999999999999 : ℚ) < q) then .error .occurrenceTimeInvalid
    else .ok { h with occ := q }
  | _ => .error .occurrenceTimeInvalid

/-- `setDetectionTime(t)`: as `setOccurrenceTime`, at offset 15. -/
def setDetectionTime (h : HeaderBuffer) (v : JSVal) : Except HeaderError HeaderBuffer :=
  match v with
  | .vnum q =>
    if decide ((1999999999999999999999999999999999999999999999999999999999999999 : ℚ) < q) then .error .detectionTimeInvalid
    else .ok { h with det := q }
  | _ => .error .detectionTimeInvalid

/-- `setEventId(id)`: rejects non-strings and strings whose
`stringByteLength` is not 12; otherwise `buffer.write(eventId, 23)`. -/
def setEventId (h : HeaderBuffer) (v : JSVal) : Except HeaderError HeaderBuffer :=
  match v with
  | .vstr id =>
    if stringByteLength id ≠ 12 then .error .eventIdInvalid
    else .ok { h with evId := writeBytes h.evId (utf8Encode id) }
  | _ => .error .eventIdInvalid

/-- `setComposed(composed)`: rejects non-booleans; otherwise flips bit 3 of
byte 0 exactly when `!Boolean(buffer[0] & 8) == composed`. -/
def setComposed (h : HeaderBuffer) (v : JSVal) : Except HeaderError HeaderBuffer :=
  match v with
  | .vbool b =>
    if (!decide (h.byte0 &&& 8 ≠ 0)) = b then .ok { h with byte0 := h.byte0 ^^^ 8 }
    else .ok h
  | _ => .error .composedInvalid

/-- One call to one of the five mutators, with its argument. -/
inductive Mutation where
  | payload (v : JSVal)
  | occurrence (v : JSVal)
  | detection (v : JSVal)
  | eventId (v : JSVal)
  | composed (v : JSVal)

/-- Applying one mutator call to a header: a mutator that throws does so
before writing anything, leaving the buffer unchanged. -/
def applyMutation (h : HeaderBuffer) (m : Mutation) : HeaderBuffer :=
  match m with
  | .payload v => ((setPayloadLength h v).toOption).getD h
  | .occurrence v => ((setOccurrenceTime h v).toOption).getD h
  | .detection v => ((setDetectionTime h v).toOption).getD h
  | .eventId v => ((setEventId h v).toOption).getD h
  | .composed v => ((setComposed h v).toOption).getD h

/-- Applying a sequence of mutator calls in order. -/
def applyMutations (h : HeaderBuffer) (ms : List Mutation) : HeaderBuffer :=
  ms.foldl applyMutation h

deriving instance DecidableEq for Except

example :
    (Header [.vstr (strUnits "testEventType"), .vnum 2,
      .vstr (strUnits "abcd-12345yz")]).isOk = true := by decide
example :
    (Header [.vstr [], .vnum 2, .vstr (strUnits "abcd-12345yz")]).isOk = true := by decide
example : (Header [.vstr (strUnits "x"), .vnum 9, .vstr (strUnits "abcd-12345yz")]) =
    .error .granularityInvalid := by decide
example : (Header [.vstr (strUnits "x"), .vnum 2, .vstr (strUnits "short")]) =
    .error .eventSourceInvalid := by decide
example : (Header [.vstr (strUnits "99999"), .vnum 2, .vstr (strUnits "abcd-12345yz")]) =
    .error .eventTypeInvalid := by decide

/-- Lists that consist of UTF-16 code units, i.e. values `charCodeAt` can
produce. -/
def isCodeUnits (str : List Nat) : Prop := ∀ c ∈ str, c < 0x10000

instance : DecidablePred isCodeUnits := fun str => List.decidableBAll _ str

instance trailsPairedDecidable (str : List Nat) : Decidable (trailsPaired str) := by
  unfold trailsPaired
  exact Nat.decidableBallLT _ _

/-- A sample header used by the closed witness theorems: the result of the
repository test's own construction
`Header("testEventType", granularity.second, "abcd-12345yz")`. -/
def sampleHeader : HeaderBuffer :=
  { byte0 := 33, hlen := 60, plen := 0, occ := 0, det := 0,
    evId := List.replicate 12 0,
    evSrc := utf8Encode (strUnits "abcd-12345yz"),
    evType := utf8Encode (strUnits "testEventType") }

example :
    Header [.vstr (strUnits "testEventType"), .vnum 2, .vstr (strUnits "abcd-12345yz")]
      = .ok sampleHeader := by decide

theorem writeBytes_length (region bytes : List Nat) :
    (writeBytes region bytes).length = region.length := by
  simp only [writeBytes, List.length_take, List.length_append, List.length_drop]
  omega

theorem writeBytes_exact (region bytes : List Nat) (h : bytes.length = region.length) :
    writeBytes region bytes = bytes := by
  simp only [writeBytes, h, List.drop_length, List.append_nil, List.take_take, Nat.min_self]
  rw [← h, List.take_length]

theorem sblLoop_cons_nontrail (c : Nat) (l : List Nat) (hc : ¬ isTrailSurrogate c) :
    sblLoop (c :: l) = sblExtra c + sblLoop l := by
  rw [sblLoop.eq_def]
  dsimp only
  rw [if_neg hc]

theorem sblLoop_cons_trail_cons (c x : Nat) (l : List Nat) (hc : isTrailSurrogate c) :
    sblLoop (c :: x :: l) = sblExtra c + sblLoop l := by
  rw [sblLoop.eq_def]
  dsimp only
  rw [if_pos hc]

theorem stringByteLength_append_nontrail (xs : List Nat) (c : Nat)
    (hc : ¬ isTrailSurrogate c) :
    stringByteLength (xs ++ [c]) = stringByteLength xs + 1 + sblExtra c := by
  simp only [stringByteLength, List.reverse_append, List.reverse_cons, List.reverse_nil,
    List.nil_append, List.singleton_append, List.length_append, List.length_cons,
    List.length_nil, sblLoop_cons_nontrail c xs.reverse hc]
  omega

theorem stringByteLength_append_pair (ys : List Nat) (l t : Nat)
    (ht : isTrailSurrogate t) :
    stringByteLength ((ys ++ [l]) ++ [t]) = stringByteLength ys + 4 := by
  have hrev : ((ys ++ [l]) ++ [t]).reverse = t :: l :: ys.reverse := by
    simp
  have hextra : sblExtra t = 2 := by
    obtain ⟨h1, h2⟩ := ht
    simp only [sblExtra]
    rw [if_neg (by omega), if_pos (by omega)]
  simp only [stringByteLength, hrev, sblLoop_cons_trail_cons t l ys.reverse ht,
    List.length_append, List.length_cons, List.length_nil, hextra]
  omega

theorem utf8SpecLen_append : ∀ (xs : List Nat) (d : Nat) (ys : List Nat),
    ¬ isTrailSurrogate d →
    utf8SpecLen (xs ++ d :: ys) = utf8SpecLen xs + utf8SpecLen (d :: ys)
  | [], d, ys, _ => by simp [utf8SpecLen]
  | [c], d, ys, hd => by
    simp only [List.cons_append, List.nil_append, utf8SpecLen]
    rw [if_neg (fun hh => hd hh.2)]
  | a :: b :: rest, d, ys, hd => by
    by_cases hab : isLeadSurrogate a ∧ isTrailSurrogate b
    · have ih := utf8SpecLen_append rest d ys hd
      simp only [List.cons_append, utf8SpecLen, if_pos hab, List.append_eq]
      rw [ih]
      omega
    · have ih := utf8SpecLen_append (b :: rest) d ys hd
      simp only [List.cons_append, utf8SpecLen, if_neg hab, List.append_eq]
      rw [List.cons_append] at ih
      rw [ih]
      omega

theorem trailsPaired_of_append {xs : List Nat} {c : Nat}
    (h : trailsPaired (xs ++ [c])) : trailsPaired xs := by
  intro i hi ht
  have hgt : (xs ++ [c]).getD i 0 = xs.getD i 0 := List.getD_append _ _ _ _ hi
  have hlen : i < (xs ++ [c]).length := by
    simp only [List.length_append, List.length_cons, List.length_nil]
    omega
  have hres := h i hlen (by rw [hgt]; exact ht)
  refine ⟨hres.1, ?_⟩
  have h1 : i - 1 < xs.length := by omega
  rw [List.getD_append _ _ _ _ h1] at hres
  exact hres.2

theorem trailsPaired_last {xs : List Nat} {c : Nat} (h : trailsPaired (xs ++ [c]))
    (hc : isTrailSurrogate c) :
    0 < xs.length ∧ isLeadSurrogate (xs.getD (xs.length - 1) 0) := by
  have hlen : xs.length < (xs ++ [c]).length := by
    simp only [List.length_append, List.length_cons, List.length_nil]
    omega
  have hget : (xs ++ [c]).getD xs.length 0 = c := by
    rw [List.getD_append_right _ _ _ _ (le_refl _)]
    simp
  have hres := h xs.length hlen (by rw [hget]; exact hc)
  refine ⟨hres.1, ?_⟩
  have h1 : xs.length - 1 < xs.length := by omega
  rw [List.getD_append _ _ _ _ h1] at hres
  exact hres.2


theorem one_add_sblExtra (c : Nat) (h : c < 0x10000) :
    1 + sblExtra c = utf8UnitBytes c := by
  simp only [sblExtra, utf8UnitBytes]
  split_ifs <;> omega

theorem sbl_eq_spec_aux : ∀ (n : Nat) (str : List Nat), str.length ≤ n →
    isCodeUnits str → trailsPaired str → stringByteLength str = utf8SpecLen str := by
  intro n
  induction n with
  | zero =>
    intro str hlen _ _
    have : str = [] := List.length_eq_zero.mp (by omega)
    subst this
    rfl
  | succ n ih =>
    intro str hlen hcu htp
    rcases List.eq_nil_or_concat' str with rfl | ⟨xs, c, rfl⟩
    · rfl
    · by_cases hc : isTrailSurrogate c
      · obtain ⟨hpos, hlead⟩ := trailsPaired_last htp hc
        rcases List.eq_nil_or_concat' xs with rfl | ⟨ys, l, rfl⟩
        · simp at hpos
        · have hll : ((ys ++ [l]).getD ((ys ++ [l]).length - 1) 0) = l := by
            rw [List.length_append]
            simp only [List.length_cons, List.length_nil]
            rw [List.getD_append_right _ _ _ _ (by omega)]
            simp
          rw [hll] at hlead
          have htp2 : trailsPaired ys := trailsPaired_of_append (trailsPaired_of_append htp)
          have hcu2 : isCodeUnits ys := fun u hu => hcu u (by simp [hu])
          have hlen2 : ys.length ≤ n := by
            simp only [List.length_append, List.length_cons, List.length_nil] at hlen
            omega
          have ihys := ih ys hlen2 hcu2 htp2
          rw [stringByteLength_append_pair ys l c hc, ihys]
          rw [List.append_assoc, List.singleton_append]
          have hnl : ¬ isTrailSurrogate l := by
            obtain ⟨h1, h2⟩ := hlead
            intro hcon
            omega
          rw [utf8SpecLen_append ys l [c] hnl]
          have h4 : utf8SpecLen (l :: [c]) = 4 := by
            simp [utf8SpecLen, hlead, hc]
          omega
      · have htp1 := trailsPaired_of_append htp
        have hcu1 : isCodeUnits xs := fun u hu => hcu u (by simp [hu])
        have hlen1 : xs.length ≤ n := by
          simp only [List.length_append, List.length_cons, List.length_nil] at hlen
          omega
        have ihxs := ih xs hlen1 hcu1 htp1
        rw [stringByteLength_append_nontrail xs c hc, ihxs]
        rw [utf8SpecLen_append xs c [] hc]
        have hcc : c < 0x10000 := hcu c (by simp)
        have h1 : utf8SpecLen (c :: []) = utf8UnitBytes c := rfl
        rw [h1]
        have h2 := one_add_sblExtra c hcc
        omega

/-- The source byte counter agrees with the per-unit UTF-8 byte count on
every code-unit sequence whose trail surrogates are properly paired. -/
theorem stringByteLength_eq_utf8SpecLen (str : List Nat) (hcu : isCodeUnits str)
    (htp : trailsPaired str) : stringByteLength str = utf8SpecLen str :=
  sbl_eq_spec_aux str.length str (le_refl _) hcu htp

theorem wf_cons_nonsurrogate {c : Nat} {rest : List Nat}
    (h : wellFormedUtf16 (c :: rest) = true) (hnl : ¬ isLeadSurrogate c) :
    c < 0x10000 ∧ ¬ isTrailSurrogate c ∧ wellFormedUtf16 rest = true := by
  rw [wellFormedUtf16.eq_def] at h
  dsimp only at h
  rw [if_neg hnl] at h
  simp only [Bool.and_eq_true, decide_eq_true_eq, Bool.not_eq_true', decide_eq_false_iff_not] at h
  exact ⟨h.1.1, h.1.2, h.2⟩

theorem wf_cons_lead {c : Nat} {rest : List Nat}
    (h : wellFormedUtf16 (c :: rest) = true) (hl : isLeadSurrogate c) :
    ∃ d rest2, rest = d :: rest2 ∧ isTrailSurrogate d ∧ wellFormedUtf16 rest2 = true := by
  rw [wellFormedUtf16.eq_def] at h
  dsimp only at h
  rw [if_pos hl] at h
  match rest, h with
  | d :: rest2, h =>
    simp only [Bool.and_eq_true, decide_eq_true_eq] at h
    exact ⟨d, rest2, rfl, h.1, h.2⟩


theorem utf8Decode_cons1 (c : Nat) (h : c < 0x80) (bs : List Nat) :
    utf8Decode (c :: bs) = c :: utf8Decode bs := by
  simp only [utf8Decode, utf8DecodeLoop]
  rw [if_pos h]

theorem utf8Decode_cons2 (c : Nat) (h1 : 0x80 ≤ c) (h2 : c ≤ 0x7ff) (bs : List Nat) :
    utf8Decode ((0xC0 + c / 64) :: (0x80 + c % 64) :: bs) = c :: utf8Decode bs := by
  simp only [utf8Decode, utf8DecodeLoop]
  rw [if_neg (by omega), if_neg (by omega), if_pos (by omega),
    if_pos (by constructor <;> omega : utf8Cont (0x80 + c % 64))]
  simp only [if_pos rfl, decodedUnits, if_pos (by omega : (0xC0 + c / 64 - 0xC0) * 64 + (0x80 + c % 64 - 0x80) ≤ 0xFFFF)]
  have hv : (0xC0 + c / 64 - 0xC0) * 64 + (0x80 + c % 64 - 0x80) = c := by omega
  rw [hv]
  simp

theorem utf8Decode_cons3 (c : Nat) (h1 : 0x800 ≤ c) (h2 : c ≤ 0xffff) (bs : List Nat) :
    utf8Decode ((0xE0 + c / 4096) :: (0x80 + c / 64 % 64) :: (0x80 + c % 64) :: bs) =
      c :: utf8Decode bs := by
  simp only [utf8Decode, utf8DecodeLoop]
  rw [if_neg (by omega), if_neg (by omega), if_neg (by omega), if_pos (by omega),
    if_pos (by constructor <;> omega : utf8Cont (0x80 + c / 64 % 64)),
    if_neg (by omega : ¬ (1 : Nat) = 0)]
  rw [if_pos (by constructor <;> omega : utf8Cont (0x80 + c % 64))]
  rw [if_pos trivial]
  have hv : ((0xE0 + c / 4096 - 0xE0) * 64 + (0x80 + c / 64 % 64 - 0x80)) * 64
      + (0x80 + c % 64 - 0x80) = c := by omega
  rw [hv]
  simp only [decodedUnits, if_pos (by omega : c ≤ 0xFFFF)]
  simp

theorem utf8Decode_cons4 (cp : Nat) (h1 : 0x10000 ≤ cp) (h2 : cp ≤ 0x10FFFF) (bs : List Nat) :
    utf8Decode (codePointBytes cp ++ bs) =
      (0xD800 + (cp - 0x10000) / 0x400) :: (0xDC00 + (cp - 0x10000) % 0x400) ::
        utf8Decode bs := by
  simp only [codePointBytes, List.cons_append, List.nil_append, utf8Decode, utf8DecodeLoop]
  rw [if_neg (by omega), if_neg (by omega), if_neg (by omega), if_neg (by omega),
    if_pos (by constructor <;> omega : utf8Cont (0x80 + cp / 0x1000 % 64)),
    if_neg (by omega : ¬ (2 : Nat) = 0)]
  rw [if_pos (by constructor <;> omega : utf8Cont (0x80 + cp / 64 % 64)),
    if_neg (by omega : ¬ (1 : Nat) = 0)]
  rw [if_pos (by constructor <;> omega : utf8Cont (0x80 + cp % 64))]
  rw [if_pos trivial]
  have hv : (((0xF0 + cp / 0x40000 - 0xF0) * 64 + (0x80 + cp / 0x1000 % 64 - 0x80)) * 64
      + (0x80 + cp / 64 % 64 - 0x80)) * 64 + (0x80 + cp % 64 - 0x80) = cp := by omega
  rw [hv]
  simp only [decodedUnits, if_neg (by omega : ¬ cp ≤ 0xFFFF)]
  simp

theorem wf_isCodeUnits_aux : ∀ (n : Nat) (s : List Nat), s.length ≤ n →
    wellFormedUtf16 s = true → isCodeUnits s := by
  intro n
  induction n with
  | zero =>
    intro s hlen _
    have : s = [] := List.length_eq_zero.mp (by omega)
    subst this
    intro c hc
    simp at hc
  | succ n ih =>
    intro s hlen hwf
    match s with
    | [] => intro c hc; simp at hc
    | c :: rest =>
      by_cases hl : isLeadSurrogate c
      · obtain ⟨d, rest2, rfl, htd, hwf2⟩ := wf_cons_lead hwf hl
        intro u hu
        simp only [List.mem_cons] at hu
        rcases hu with rfl | rfl | hu
        · obtain ⟨a, b⟩ := hl; omega
        · obtain ⟨a, b⟩ := htd; omega
        · exact ih rest2 (by simp at hlen; omega) hwf2 u hu
      · obtain ⟨hcu, _, hwf'⟩ := wf_cons_nonsurrogate hwf hl
        intro u hu
        simp only [List.mem_cons] at hu
        rcases hu with rfl | hu
        · exact hcu
        · exact ih rest (by simp at hlen; omega) hwf' u hu

theorem wf_isCodeUnits {s : List Nat} (h : wellFormedUtf16 s = true) : isCodeUnits s :=
  wf_isCodeUnits_aux s.length s (le_refl _) h

theorem wf_trailsPaired_aux : ∀ (n : Nat) (s : List Nat), s.length ≤ n →
    wellFormedUtf16 s = true → trailsPaired s := by
  intro n
  induction n with
  | zero =>
    intro s hlen _
    have : s = [] := List.length_eq_zero.mp (by omega)
    subst this
    intro i hi
    simp at hi
  | succ n ih =>
    intro s hlen hwf
    match s with
    | [] => intro i hi; simp at hi
    | c :: rest =>
      by_cases hl : isLeadSurrogate c
      · obtain ⟨d, rest2, rfl, htd, hwf2⟩ := wf_cons_lead hwf hl
        have htp2 : trailsPaired rest2 := ih rest2 (by simp at hlen; omega) hwf2
        intro i hi ht
        match i with
        | 0 =>
          exfalso
          simp only [List.getD_cons_zero] at ht
          obtain ⟨a1, a2⟩ := hl
          obtain ⟨b1, b2⟩ := ht
          omega
        | 1 =>
          refine ⟨by omega, ?_⟩
          simpa using hl
        | (i + 2) =>
          simp only [List.getD_cons_succ] at ht
          have hi2 : i < rest2.length := by
            simp only [List.length_cons] at hi
            omega
          have hres := htp2 i hi2 ht
          refine ⟨by omega, ?_⟩
          have h1 : 0 < i := hres.1
          have : i + 2 - 1 = (i - 1) + 2 := by omega
          rw [this]
          simp only [List.getD_cons_succ]
          exact hres.2
      · obtain ⟨_, hnt, hwf'⟩ := wf_cons_nonsurrogate hwf hl
        have htp' : trailsPaired rest := ih rest (by simp at hlen; omega) hwf'
        intro i hi ht
        match i with
        | 0 =>
          exfalso
          simp only [List.getD_cons_zero] at ht
          exact hnt ht
        | (i + 1) =>
          simp only [List.getD_cons_succ] at ht
          have hi1 : i < rest.length := by
            simp only [List.length_cons] at hi
            omega
          have hres := htp' i hi1 ht
          refine ⟨by omega, ?_⟩
          have h1 : 0 < i := hres.1
          have : i + 1 - 1 = (i - 1) + 1 := by omega
          rw [this]
          simp only [List.getD_cons_succ]
          exact hres.2

theorem wf_trailsPaired {s : List Nat} (h : wellFormedUtf16 s = true) : trailsPaired s :=
  wf_trailsPaired_aux s.length s (le_refl _) h

theorem wf_single_not_lead {c : Nat} (hwf : wellFormedUtf16 [c] = true) :
    ¬ isLeadSurrogate c := by
  intro hl
  obtain ⟨d, rest2, heq, _⟩ := wf_cons_lead hwf hl
  simp at heq

theorem wf_encode_length_aux : ∀ (n : Nat) (s : List Nat), s.length ≤ n →
    wellFormedUtf16 s = true → (utf8Encode s).length = utf8SpecLen s := by
  intro n
  induction n with
  | zero =>
    intro s hlen _
    have : s = [] := List.length_eq_zero.mp (by omega)
    subst this
    rfl
  | succ n ih =>
    intro s hlen hwf
    match s with
    | [] => rfl
    | [c] =>
      have hnl : ¬ isLeadSurrogate c := wf_single_not_lead hwf
      obtain ⟨hcu, hnt, _⟩ := wf_cons_nonsurrogate hwf hnl
      simp only [utf8Encode, utf8SpecLen, utf8UnitBytes, utf8Repl]
      split_ifs <;> simp_all
    | c :: d :: rest =>
      by_cases hl : isLeadSurrogate c
      · obtain ⟨d', rest2, heq, htd, hwf2⟩ := wf_cons_lead hwf hl
        injection heq with h1 h2
        subst h1
        subst h2
        have ihr := ih rest (by simp at hlen; omega) hwf2
        have hnlc1 : ¬ c < 0x80 := by obtain ⟨a, b⟩ := hl; omega
        have hnlc2 : ¬ c ≤ 0x7ff := by obtain ⟨a, b⟩ := hl; omega
        simp only [utf8Encode, if_neg hnlc1, if_neg hnlc2, if_pos hl, if_pos htd]
        simp only [utf8SpecLen, if_pos (And.intro hl htd)]
        simp only [List.length_append, codePointBytes, List.length_cons, List.length_nil]
        omega
      · obtain ⟨hcu, hnt, hwf'⟩ := wf_cons_nonsurrogate hwf hl
        have ihr := ih (d :: rest) (by simp at hlen ⊢; omega) hwf'
        have hns : ¬ (isLeadSurrogate c ∧ isTrailSurrogate d) := fun hh => hl hh.1
        simp only [utf8SpecLen, if_neg hns, utf8UnitBytes]
        simp only [utf8Encode, if_neg hl, if_neg hnt]
        split_ifs <;> simp_all <;> omega

theorem wf_encode_length {s : List Nat} (h : wellFormedUtf16 s = true) :
    (utf8Encode s).length = utf8SpecLen s :=
  wf_encode_length_aux s.length s (le_refl _) h

/-- For a well-formed string the source's byte counter equals the length of
the actual UTF-8 encoding. -/
theorem wf_stringByteLength_eq_encode_length {s : List Nat}
    (h : wellFormedUtf16 s = true) : stringByteLength s = (utf8Encode s).length := by
  rw [wf_encode_length h,
    stringByteLength_eq_utf8SpecLen s (wf_isCodeUnits h) (wf_trailsPaired h)]

theorem utf8_roundtrip_aux : ∀ (n : Nat) (s : List Nat), s.length ≤ n →
    wellFormedUtf16 s = true → utf8Decode (utf8Encode s) = s := by
  intro n
  induction n with
  | zero =>
    intro s hlen _
    have : s = [] := List.length_eq_zero.mp (by omega)
    subst this
    rfl
  | succ n ih =>
    intro s hlen hwf
    match s with
    | [] => rfl
    | [c] =>
      have hnl : ¬ isLeadSurrogate c := wf_single_not_lead hwf
      obtain ⟨hcu, hnt, _⟩ := wf_cons_nonsurrogate hwf hnl
      by_cases h1 : c < 0x80
      · simp only [utf8Encode, if_pos h1]
        rw [utf8Decode_cons1 c h1 []]
        rfl
      · by_cases h2 : c ≤ 0x7ff
        · simp only [utf8Encode, if_neg h1, if_pos h2]
          rw [show ([0xC0 + c / 64, 0x80 + c % 64] : List Nat) =
            (0xC0 + c / 64) :: (0x80 + c % 64) :: [] from rfl]
          rw [utf8Decode_cons2 c (by omega) h2 []]
          rfl
        · have hns : ¬ (isLeadSurrogate c ∨ isTrailSurrogate c) := by
            intro hh
            rcases hh with hh | hh
            · exact hnl hh
            · exact hnt hh
          simp only [utf8Encode, if_neg h1, if_neg h2, if_neg hns]
          rw [show ([0xE0 + c / 4096, 0x80 + c / 64 % 64, 0x80 + c % 64] : List Nat) =
            (0xE0 + c / 4096) :: (0x80 + c / 64 % 64) :: (0x80 + c % 64) :: [] from rfl]
          rw [utf8Decode_cons3 c (by omega) (by omega) []]
          rfl
    | c :: d :: rest =>
      by_cases hl : isLeadSurrogate c
      · obtain ⟨d', rest2, heq, htd, hwf2⟩ := wf_cons_lead hwf hl
        injection heq with h1 h2
        subst h1
        subst h2
        have ihr := ih rest (by simp at hlen; omega) hwf2
        have hnlc1 : ¬ c < 0x80 := by obtain ⟨a, b⟩ := hl; omega
        have hnlc2 : ¬ c ≤ 0x7ff := by obtain ⟨a, b⟩ := hl; omega
        simp only [utf8Encode, if_neg hnlc1, if_neg hnlc2, if_pos hl, if_pos htd]
        obtain ⟨ha1, ha2⟩ := hl
        obtain ⟨hb1, hb2⟩ := htd
        rw [utf8Decode_cons4 _ (by omega) (by omega) _]
        rw [ihr]
        have hc1 : 0xD800 + (0x10000 + (c - 0xD800) * 0x400 + (d - 0xDC00) - 0x10000) / 0x400
            = c := by omega
        have hc2 : 0xDC00 + (0x10000 + (c - 0xD800) * 0x400 + (d - 0xDC00) - 0x10000) % 0x400
            = d := by omega
        rw [hc1, hc2]
      · obtain ⟨hcu, hnt, hwf'⟩ := wf_cons_nonsurrogate hwf hl
        have ihr := ih (d :: rest) (by simp at hlen ⊢; omega) hwf'
        by_cases h1 : c < 0x80
        · simp only [utf8Encode, if_pos h1]
          rw [utf8Decode_cons1 c h1 _, ihr]
        · by_cases h2 : c ≤ 0x7ff
          · simp only [utf8Encode, if_neg h1, if_pos h2]
            rw [utf8Decode_cons2 c (by omega) h2 _, ihr]
          · simp only [utf8Encode, if_neg h1, if_neg h2, if_neg hl, if_neg hnt]
            rw [utf8Decode_cons3 c (by omega) (by omega) _, ihr]

/-- Decoding inverts encoding on well-formed UTF-16 strings. -/
theorem utf8_roundtrip {s : List Nat} (h : wellFormedUtf16 s = true) :
    utf8Decode (utf8Encode s) = s :=
  utf8_roundtrip_aux s.length s (le_refl _) h

theorem validate_foldl_aux (value : JSVal) : ∀ (l : List JSVal) (init : Bool),
    (l.foldl (fun isValid v => if value = v then true else isValid) init = true) ↔
      (init = true ∨ value ∈ l)
  | [], init => by simp
  | x :: xs, init => by
    simp only [List.foldl_cons]
    rw [validate_foldl_aux value xs]
    by_cases h : value = x
    · simp [h, List.mem_cons]
    · simp [h, List.mem_cons]

theorem validateEnumValue_true_iff (value : JSVal) (l : List JSVal) :
    validateEnumValue value l = true ↔ value ∈ l := by
  unfold validateEnumValue
  rw [validate_foldl_aux]
  simp

theorem Header_ok_shape {args : List JSVal} {h : HeaderBuffer}
    (hc : Header args = .ok h) :
    ∃ et src,
      args.getD 0 .vundef = .vstr et ∧
      args.getD 2 .vundef = .vstr src ∧
      validateEnumValue (args.getD 1 .vundef) granularityEnumValues = true ∧
      stringByteLength src = 12 ∧
      47 + stringByteLength et ≤ 65535 ∧
      (h.byte0 = (1 ||| (granCode (args.getD 1 .vundef) <<< 4)) % 256 ∨
        (args.length = 4 ∧
          h.byte0 = ((1 ||| (granCode (args.getD 1 .vundef) <<< 4)) % 256) ^^^ 8)) ∧
      h.hlen = 47 + stringByteLength et ∧ h.plen = 0 ∧ h.occ = 0 ∧ h.det = 0 ∧
      h.evId = List.replicate 12 0 ∧
      h.evSrc = writeBytes (List.replicate 12 0) (utf8Encode src) ∧
      h.evType = writeBytes (List.replicate (stringByteLength et) 0) (utf8Encode et) := by
  unfold Header at hc
  dsimp only at hc
  split at hc
  · exact absurd hc (by simp)
  · split at hc
    · exact absurd hc (by simp)
    · split at hc <;> exact absurd hc (by simp)
    · split at hc <;> exact absurd hc (by simp)
    · rename_i et heq0
      split at hc
      · exact absurd hc (by simp)
      · rename_i hgt
        split at hc
        · exact absurd hc (by simp)
        · rename_i hlenok
          split at hc
          · exact absurd hc (by simp)
          · rename_i hvenum
            split at hc
            · rename_i src heq2
              split at hc
              · exact absurd hc (by simp)
              · rename_i hsrc12
                simp only [Except.ok.injEq] at hc
                subst hc
                refine ⟨et, src, heq0, heq2, ?_, ?_, ?_, ?_, rfl, rfl, rfl, rfl, rfl, rfl, rfl⟩
                · simpa using hvenum
                · omega
                · omega
                · dsimp only
                  split
                  · rename_i h4
                    split
                    all_goals first
                    | exact Or.inl rfl
                    | (split
                       · exact Or.inr ⟨h4, rfl⟩
                       · exact Or.inl rfl)
                  · exact Or.inl rfl
            · exact absurd hc (by simp)

theorem applyMutation_fields (h : HeaderBuffer) (m : Mutation) :
    (applyMutation h m).hlen = h.hlen ∧
    (applyMutation h m).evType = h.evType ∧
    (applyMutation h m).evSrc = h.evSrc ∧
    (applyMutation h m).evId.length = h.evId.length := by
  cases m with
  | payload v =>
    cases v <;> simp only [applyMutation, setPayloadLength] <;>
      first
      | exact ⟨rfl, rfl, rfl, rfl⟩
      | (split_ifs <;> exact ⟨rfl, rfl, rfl, rfl⟩)
  | occurrence v =>
    cases v <;> simp only [applyMutation, setOccurrenceTime] <;>
      first
      | exact ⟨rfl, rfl, rfl, rfl⟩
      | (split_ifs <;> exact ⟨rfl, rfl, rfl, rfl⟩)
  | detection v =>
    cases v <;> simp only [applyMutation, setDetectionTime] <;>
      first
      | exact ⟨rfl, rfl, rfl, rfl⟩
      | (split_ifs <;> exact ⟨rfl, rfl, rfl, rfl⟩)
  | eventId v =>
    cases v <;> simp only [applyMutation, setEventId] <;>
      first
      | exact ⟨rfl, rfl, rfl, rfl⟩
      | (split_ifs <;>
          first
          | exact ⟨rfl, rfl, rfl, rfl⟩
          | exact ⟨rfl, rfl, rfl, writeBytes_length _ _⟩)
  | composed v =>
    cases v <;> simp only [applyMutation, setComposed] <;>
      first
      | exact ⟨rfl, rfl, rfl, rfl⟩
      | (split_ifs <;> exact ⟨rfl, rfl, rfl, rfl⟩)

theorem applyMutations_fields (h : HeaderBuffer) (ms : List Mutation) :
    (applyMutations h ms).hlen = h.hlen ∧
    (applyMutations h ms).evType = h.evType ∧
    (applyMutations h ms).evSrc = h.evSrc ∧
    (applyMutations h ms).evId.length = h.evId.length := by
  induction ms generalizing h with
  | nil => exact ⟨rfl, rfl, rfl, rfl⟩
  | cons m ms ih =>
    have h1 := applyMutation_fields h m
    have h2 := ih (applyMutation h m)
    simp only [applyMutations, List.foldl_cons] at h2 ⊢
    exact ⟨h2.1.trans h1.1, h2.2.1.trans h1.2.1, h2.2.2.1.trans h1.2.2.1,
      h2.2.2.2.trans h1.2.2.2⟩

/-- C1: for every header produced by a successful construction, and after
any sequence of mutator calls, the headerLength field at offset 1 equals the
buffer length, the buffer length never changes (the buffer is never
resized), and when the eventType argument is the string `et` the buffer
length is `47 + stringByteLength et`. -/
theorem C1_headerLength_invariant (args : List JSVal) (h : HeaderBuffer)
    (ms : List Mutation) (hc : Header args = .ok h) :
    getHeaderLength (applyMutations h ms) = bufLength (applyMutations h ms) ∧
    bufLength (applyMutations h ms) = bufLength h ∧
    ∀ et, args.getD 0 .vundef = .vstr et →
      bufLength (applyMutations h ms) = 47 + stringByteLength et := by
  obtain ⟨et, src, heq0, _, _, _, _, _, hhlen, _, _, _, hevId, hevSrc, hevType⟩ :=
    Header_ok_shape hc
  obtain ⟨f1, f2, f3, f4⟩ := applyMutations_fields h ms
  have hlenId : h.evId.length = 12 := by rw [hevId]; simp
  have hlenSrc : h.evSrc.length = 12 := by rw [hevSrc, writeBytes_length]; simp
  have hlenType : h.evType.length = stringByteLength et := by
    rw [hevType, writeBytes_length]
    simp
  have hbuf : bufLength h = 47 + stringByteLength et := by
    simp only [bufLength, hlenId, hlenSrc, hlenType]
  have hbuf' : bufLength (applyMutations h ms) = bufLength h := by
    simp only [bufLength, f2, f3, f4]
  refine ⟨?_, hbuf', ?_⟩
  · rw [getHeaderLength, f1, hhlen, hbuf', hbuf]
  · intro et' heq'
    rw [heq0] at heq'
    injection heq' with he
    subst he
    rw [hbuf', hbuf]

/-- C1 witness: the invariant applied to the repository test's construction
followed by a concrete mutation sequence. -/
theorem C1_headerLength_invariant_witness :
    getHeaderLength (applyMutations sampleHeader
        [.payload (.vnum 100), .composed (.vbool true),
         .eventId (.vstr (strUnits "abcd-12345yz"))]) =
      bufLength (applyMutations sampleHeader
        [.payload (.vnum 100), .composed (.vbool true),
         .eventId (.vstr (strUnits "abcd-12345yz"))]) ∧
    bufLength (applyMutations sampleHeader
        [.payload (.vnum 100), .composed (.vbool true),
         .eventId (.vstr (strUnits "abcd-12345yz"))]) = bufLength sampleHeader ∧
    ∀ et, ([JSVal.vstr (strUnits "testEventType"), JSVal.vnum 2,
        JSVal.vstr (strUnits "abcd-12345yz")].getD 0 .vundef) = .vstr et →
      bufLength (applyMutations sampleHeader
        [.payload (.vnum 100), .composed (.vbool true),
         .eventId (.vstr (strUnits "abcd-12345yz"))]) = 47 + stringByteLength et :=
  C1_headerLength_invariant
    [.vstr (strUnits "testEventType"), .vnum 2, .vstr (strUnits "abcd-12345yz")]
    sampleHeader
    [.payload (.vnum 100), .composed (.vbool true),
     .eventId (.vstr (strUnits "abcd-12345yz"))]
    (by decide)

/-- C2 (code bug): the operator-precedence slip in the eventType test,
`typeof eventType != 'string' && (eventType.length === 0) || eventType >
(65535 - 47)`, lets the empty string through: `Header("", 2,
"abcd-12345yz")` succeeds, producing a 47-byte header with an empty
eventType, although the constructor's own error message and parameter
documentation require a string of length greater than zero. -/
theorem C2_empty_eventType_accepted :
    (Header [.vstr [], .vnum 2, .vstr (strUnits "abcd-12345yz")]).toOption.map
        getHeaderLength = some 47 ∧
    (Header [.vstr [], .vnum 2, .vstr (strUnits "abcd-12345yz")]).toOption.map
        getEventType = some [] := by decide

/-- C3 (amended): for every successful three-argument construction
`Header(eventType, code, eventSource)` whose eventType and eventSource are
well-formed UTF-16 (no unpaired surrogates), the accessors round-trip the
construction inputs: `getProtocolVersion()` is 1, `isComposed()` is false,
`getTemporalGranularity()` is exactly the code passed in, `getEventType()`
returns eventType and `getEventSource()` returns eventSource. -/
theorem C3_roundtrip (et es : List Nat) (g : ℚ) (h : HeaderBuffer)
    (hwfT : wellFormedUtf16 et = true) (hwfS : wellFormedUtf16 es = true)
    (hc : Header [.vstr et, .vnum g, .vstr es] = .ok h) :
    getProtocolVersion h = 1 ∧ isComposed h = false ∧
    ((getTemporalGranularity h : Nat) : ℚ) = g ∧
    getEventType h = et ∧ getEventSource h = es := by
  obtain ⟨et0, src0, heq0, heq2, hvenum, hsrc12, _, hb0, hhlen, _, _, _, _, hevSrc,
    hevType⟩ := Header_ok_shape hc
  simp only [List.getD_cons_zero, List.getD_cons_succ] at heq0 heq2 hvenum hb0
  injection heq0 with he
  subst he
  injection heq2 with hs
  subst hs
  -- the three-argument call cannot have taken the composed branch
  have hbexact : h.byte0 = (1 ||| (granCode (JSVal.vnum g) <<< 4)) % 256 := by
    rcases hb0 with hb | ⟨h4, _⟩
    · exact hb
    · simp at h4
  -- the granularity code is one of the table's eight values
  have hg : JSVal.vnum g ∈ granularityEnumValues := (validateEnumValue_true_iff _ _).mp hvenum
  simp only [granularityEnumValues, granularityTable, List.map_cons, List.map_nil,
    List.mem_cons, List.not_mem_nil, or_false, JSVal.vnum.injEq] at hg
  have hk : ∃ k : Nat, k ≤ 7 ∧ granCode (JSVal.vnum g) = k ∧ (k : ℚ) = g := by
    rcases hg with rfl | rfl | rfl | rfl | rfl | rfl | rfl | rfl
    · exact ⟨0, by norm_num, by decide, by norm_num⟩
    · exact ⟨1, by norm_num, by decide, by norm_num⟩
    · exact ⟨2, by norm_num, by decide, by norm_num⟩
    · exact ⟨3, by norm_num, by decide, by norm_num⟩
    · exact ⟨4, by norm_num, by decide, by norm_num⟩
    · exact ⟨5, by norm_num, by decide, by norm_num⟩
    · exact ⟨6, by norm_num, by decide, by norm_num⟩
    · exact ⟨7, by norm_num, by decide, by norm_num⟩
  obtain ⟨k, hk7, hgc, hcast⟩ := hk
  rw [hgc] at hbexact
  have henc : (utf8Encode es).length = (List.replicate 12 0 : List Nat).length := by
    rw [← wf_stringByteLength_eq_encode_length hwfS, hsrc12]
    simp
  have hencT : (utf8Encode et).length =
      (List.replicate (stringByteLength et) 0 : List Nat).length := by
    rw [← wf_stringByteLength_eq_encode_length hwfT]
    simp
  refine ⟨?_, ?_, ?_, ?_, ?_⟩
  · rw [getProtocolVersion, hbexact]
    have : (1 ||| (k <<< 4)) % 256 &&& 7 = 1 := by interval_cases k <;> decide
    exact this
  · rw [isComposed, hbexact]
    have : ((1 ||| (k <<< 4)) % 256 &&& 8 ≠ 0) = False := by
      interval_cases k <;> decide
    simp [this]
  · rw [getTemporalGranularity, hbexact]
    have : ((1 ||| (k <<< 4)) % 256) >>> 4 = k := by interval_cases k <;> decide
    rw [this, hcast]
  · rw [getEventType, hevType, writeBytes_exact _ _ hencT, hhlen]
    have : 47 + stringByteLength et - 47 = stringByteLength et := by omega
    rw [this, wf_stringByteLength_eq_encode_length hwfT, List.take_length]
    exact utf8_roundtrip hwfT
  · rw [getEventSource, hevSrc, writeBytes_exact _ _ henc]
    exact utf8_roundtrip hwfS

/-- C3 counterexample: the claim as stated fails on a 12-byte eventSource
containing an unpaired trail surrogate.  `Header("testEventType", 2,
"\uDC00AAAAAAAAA")` succeeds (the eventSource measures 12 bytes), yet
`getEventSource()` returns "\uFFFDAAAAAAAAA", not the eventSource passed
in: the unpaired surrogate is encoded as the replacement character. -/
theorem C3_counterexample :
    stringByteLength (0xDC00 :: strUnits "AAAAAAAAA") = 12 ∧
    (Header [.vstr (strUnits "testEventType"), .vnum 2,
        .vstr (0xDC00 :: strUnits "AAAAAAAAA")]).toOption.map getEventSource =
      some (0xFFFD :: strUnits "AAAAAAAAA") ∧
    (0xFFFD :: strUnits "AAAAAAAAA") ≠ (0xDC00 :: strUnits "AAAAAAAAA") := by
  refine ⟨by decide, by decide, by decide⟩

/-- C3 witness: the amended round-trip applied to the repository test's own
construction. -/
theorem C3_roundtrip_witness :
    getProtocolVersion sampleHeader = 1 ∧ isComposed sampleHeader = false ∧
    ((getTemporalGranularity sampleHeader : Nat) : ℚ) = 2 ∧
    getEventType sampleHeader = strUnits "testEventType" ∧
    getEventSource sampleHeader = strUnits "abcd-12345yz" :=
  C3_roundtrip (strUnits "testEventType") (strUnits "abcd-12345yz") 2 sampleHeader
    (by decide) (by decide) (by decide)

theorem testBit8_ne (i : Nat) (hi : i ≠ 3) : (8 : Nat).testBit i = false := by
  rw [show (8 : Nat) = 2 ^ 3 from rfl]
  exact Nat.testBit_two_pow_of_ne (Ne.symm hi)

theorem xor8_testBit_ne (x : Nat) (i : Nat) (hi : i ≠ 3) :
    (x ^^^ 8).testBit i = x.testBit i := by
  rw [Nat.testBit_xor, testBit8_ne i hi]
  simp

theorem and8_eq_zero_iff (x : Nat) : x &&& 8 = 0 ↔ x.testBit 3 = false := by
  have h := Nat.and_two_pow x 3
  norm_num at h
  rw [h]
  cases hx : x.testBit 3 <;> simp

theorem xor8_and8 (x : Nat) : ((x ^^^ 8) &&& 8 = 0) ↔ ¬ (x &&& 8 = 0) := by
  rw [and8_eq_zero_iff, and8_eq_zero_iff]
  have : (x ^^^ 8).testBit 3 = !(x.testBit 3) := by
    rw [Nat.testBit_xor]
    have : (8 : Nat).testBit 3 = true := by decide
    rw [this]
    cases x.testBit 3 <;> decide
  rw [this]
  cases x.testBit 3 <;> simp

/-- C4: `setComposed(flag)` fails with the setter's `InvalidArgument` error
for every non-boolean flag; for every boolean flag it succeeds, makes
`isComposed()` return the flag, is idempotent (a second identical call
returns the header unchanged), and touches only bit 3 of byte 0: every
other bit of byte 0, `getProtocolVersion()`, `getTemporalGranularity()` and
every other region of the buffer are unchanged. -/
theorem C4_setComposed (h : HeaderBuffer) :
    (∀ v : JSVal, (∀ b : Bool, v ≠ .vbool b) →
      setComposed h v = .error .composedInvalid) ∧
    (∀ b : Bool, (setComposed h (.vbool b)).isOk = true) ∧
    (∀ (b : Bool) (h' : HeaderBuffer), setComposed h (.vbool b) = .ok h' →
      isComposed h' = b ∧
      setComposed h' (.vbool b) = .ok h' ∧
      (∀ i, i ≠ 3 → h'.byte0.testBit i = h.byte0.testBit i) ∧
      getProtocolVersion h' = getProtocolVersion h ∧
      getTemporalGranularity h' = getTemporalGranularity h ∧
      h'.hlen = h.hlen ∧ h'.plen = h.plen ∧ h'.occ = h.occ ∧ h'.det = h.det ∧
      h'.evId = h.evId ∧ h'.evSrc = h.evSrc ∧ h'.evType = h.evType) := by
  refine ⟨?_, ?_, ?_⟩
  · intro v hv
    match v with
    | .vstr s => rfl
    | .vnum q => rfl
    | .vundef => rfl
    | .vbool b => exact absurd rfl (hv b)
  · intro b
    rw [setComposed]
    split <;> rfl
  · intro b h' heq
    rw [setComposed] at heq
    split at heq <;> rename_i hcond <;>
      simp only [Except.ok.injEq] at heq <;> subst heq
    · -- the flip branch: the current flag differed from the requested one
      have hflip : decide (h.byte0 &&& 8 ≠ 0) = !b := by
        cases hb : decide (h.byte0 &&& 8 ≠ 0) <;> rw [hb] at hcond <;>
          cases b <;> simp_all
      have hbit : isComposed { h with byte0 := h.byte0 ^^^ 8 } = b := by
        simp only [isComposed]
        dsimp only
        by_cases hz : h.byte0 &&& 8 = 0
        · have hne : (h.byte0 ^^^ 8) &&& 8 ≠ 0 := fun hcontra =>
            ((xor8_and8 h.byte0).mp hcontra) hz
          rw [decide_eq_true hne]
          have hd : decide (h.byte0 &&& 8 ≠ 0) = false := by simp [hz]
          rw [hd] at hflip
          cases b
          · simp at hflip
          · rfl
        · have hne : (h.byte0 ^^^ 8) &&& 8 = 0 := (xor8_and8 h.byte0).mpr hz
          have hd0 : decide ((h.byte0 ^^^ 8) &&& 8 ≠ 0) = false := by simp [hne]
          rw [hd0]
          have hd : decide (h.byte0 &&& 8 ≠ 0) = true := by simp [hz]
          rw [hd] at hflip
          cases b
          · rfl
          · simp at hflip
      refine ⟨hbit, ?_, ?_, ?_, ?_, rfl, rfl, rfl, rfl, rfl, rfl, rfl⟩
      · rw [setComposed]
        rw [if_neg ?_]
        intro hcon
        have : decide ((h.byte0 ^^^ 8) &&& 8 ≠ 0) = b := by
          have := hbit
          simpa [isComposed] using this
        rw [this] at hcon
        cases b <;> simp_all
      · intro i hi
        exact xor8_testBit_ne h.byte0 i hi
      · simp only [getProtocolVersion]
        have h7 : (7 : Nat) = 2 ^ 3 - 1 := rfl
        apply Nat.eq_of_testBit_eq
        intro i
        rw [Nat.testBit_and, Nat.testBit_and]
        by_cases hi : i = 3
        · subst hi
          have : (7 : Nat).testBit 3 = false := by decide
          rw [this]
          simp
        · rw [xor8_testBit_ne h.byte0 i hi]
      · simp only [getTemporalGranularity]
        apply Nat.eq_of_testBit_eq
        intro i
        rw [Nat.testBit_shiftRight, Nat.testBit_shiftRight]
        exact xor8_testBit_ne h.byte0 (4 + i) (by omega)
    · -- the no-op branch: the flags already agree
      have hsame : decide (h.byte0 &&& 8 ≠ 0) = b := by
        cases hb : decide (h.byte0 &&& 8 ≠ 0) <;> rw [hb] at hcond <;>
          cases b <;> simp_all
      refine ⟨by simpa [isComposed] using hsame, ?_, fun i _ => rfl, rfl, rfl,
        rfl, rfl, rfl, rfl, rfl, rfl, rfl⟩
      rw [setComposed]
      rw [if_neg hcond]

/-- C4 witness: `setComposed` rejects a number, accepts a boolean, and on
the test header flipping the flag makes `isComposed()` true. -/
theorem C4_setComposed_witness :
    setComposed sampleHeader (.vnum 1) = .error .composedInvalid ∧
    (setComposed sampleHeader (.vbool true)).isOk = true ∧
    isComposed { sampleHeader with byte0 := sampleHeader.byte0 ^^^ 8 } = true :=
  ⟨(C4_setComposed sampleHeader).1 (.vnum 1) (fun b => by simp),
   (C4_setComposed sampleHeader).2.1 true,
   ((C4_setComposed sampleHeader).2.2 true
     { sampleHeader with byte0 := sampleHeader.byte0 ^^^ 8 } (by decide)).1⟩

/-- C5 counterexample: the claim says `setPayloadLength` rejects every
non-integer, but `setPayloadLength(1.5)` succeeds and the bitwise byte
writes silently truncate it: `getPayloadLength()` then returns 1. -/
theorem C5_counterexample :
    setPayloadLength sampleHeader (.vnum (mkRat 3 2)) =
      .ok { sampleHeader with plen := 1 } ∧
    getPayloadLength { sampleHeader with plen := 1 } = 1 := by
  refine ⟨by decide, rfl⟩

/-- C5 (amended): `setPayloadLength(n)` fails with the setter's
`InvalidArgument` error for every non-number and for every number above
4294967295; a negative number fails the buffer write's range assertion; for
every non-negative integer `n ≤ 4294967295` it succeeds, a subsequent
`getPayloadLength()` returns `n`, and no other field of the buffer changes.
A non-integer number within range is not rejected: it is written truncated
toward zero. -/
theorem C5_setPayloadLength (h : HeaderBuffer) :
    (∀ v : JSVal, (∀ q : ℚ, v ≠ .vnum q) →
      setPayloadLength h v = .error .payloadInvalid) ∧
    (∀ q : ℚ, (4294967295 : ℚ) < q →
      setPayloadLength h (.vnum q) = .error .payloadInvalid) ∧
    (∀ q : ℚ, q < 0 → setPayloadLength h (.vnum q) = .error .rangeError) ∧
    (∀ n : Nat, (n : ℚ) ≤ 4294967295 →
      setPayloadLength h (.vnum (n : ℚ)) = .ok { h with plen := n } ∧
      getPayloadLength { h with plen := n } = n) := by
  refine ⟨?_, ?_, ?_, ?_⟩
  · intro v hv
    match v with
    | .vstr s => rfl
    | .vbool b => rfl
    | .vundef => rfl
    | .vnum q => exact absurd rfl (hv q)
  · intro q hq
    rw [setPayloadLength]
    rw [if_pos (by simpa using hq)]
  · intro q hq
    rw [setPayloadLength]
    rw [if_neg (by simp; linarith), if_pos (by simpa using hq)]
  · intro n hn
    constructor
    · rw [setPayloadLength]
      rw [if_neg (by simp; exact_mod_cast hn), if_neg (by simp)]
      have : ratTruncToNat ((n : ℚ)) = n := by
        simp [ratTruncToNat, Rat.num_natCast, Rat.den_natCast]
      rw [this]
    · rfl

/-- C5 witness: the boundary value 4294967295 is accepted and read back. -/
theorem C5_setPayloadLength_witness :
    setPayloadLength sampleHeader (.vnum ((4294967295 : Nat) : ℚ)) =
      .ok { sampleHeader with plen := 4294967295 } ∧
    getPayloadLength { sampleHeader with plen := 4294967295 } = 4294967295 :=
  (C5_setPayloadLength sampleHeader).2.2.2 4294967295 (by norm_num)

/-- C6 counterexample: the bound in the source is the literal `2E+63 - 1`,
i.e. two times ten to the 63rd minus one, not `2^63 - 1`.  The numeric value
`2^64 = 18446744073709551616` exceeds `2^63 - 1`, so the claim says both
setters must reject it, yet both accept it and store it. -/
theorem C6_counterexample :
    ((9223372036854775807 : ℚ) < 18446744073709551616) ∧
    setOccurrenceTime sampleHeader (.vnum 18446744073709551616) =
      .ok { sampleHeader with occ := 18446744073709551616 } ∧
    setDetectionTime sampleHeader (.vnum 18446744073709551616) =
      .ok { sampleHeader with det := 18446744073709551616 } := by
  refine ⟨by norm_num, by decide, by decide⟩

/-- C6 (amended): `setOccurrenceTime(t)` and `setDetectionTime(t)` fail with
the setter's `InvalidArgument` error for every non-numeric `t` and for every
numeric `t` greater than the source's literal `2E+63 - 1` (two times ten to
the 63rd minus one); for every numeric `t` within that bound they succeed
and store `t` as the 64-bit big-endian float at offset 7 (respectively 15),
so the matching getter returns `t` and no other field changes. -/
theorem C6_setTimes (h : HeaderBuffer) :
    (∀ v : JSVal, (∀ q : ℚ, v ≠ .vnum q) →
      setOccurrenceTime h v = .error .occurrenceTimeInvalid ∧
      setDetectionTime h v = .error .detectionTimeInvalid) ∧
    (∀ q : ℚ,
      (1999999999999999999999999999999999999999999999999999999999999999 : ℚ) < q →
      setOccurrenceTime h (.vnum q) = .error .occurrenceTimeInvalid ∧
      setDetectionTime h (.vnum q) = .error .detectionTimeInvalid) ∧
    (∀ q : ℚ,
      q ≤ (1999999999999999999999999999999999999999999999999999999999999999 : ℚ) →
      setOccurrenceTime h (.vnum q) = .ok { h with occ := q } ∧
      getOccurrenceTime { h with occ := q } = q ∧
      setDetectionTime h (.vnum q) = .ok { h with det := q } ∧
      getDetectionTime { h with det := q } = q) := by
  refine ⟨?_, ?_, ?_⟩
  · intro v hv
    match v with
    | .vstr s => exact ⟨rfl, rfl⟩
    | .vbool b => exact ⟨rfl, rfl⟩
    | .vundef => exact ⟨rfl, rfl⟩
    | .vnum q => exact absurd rfl (hv q)
  · intro q hq
    constructor
    · rw [setOccurrenceTime, if_pos (by simpa using hq)]
    · rw [setDetectionTime, if_pos (by simpa using hq)]
  · intro q hq
    refine ⟨?_, rfl, ?_, rfl⟩
    · rw [setOccurrenceTime, if_neg (by simp; linarith)]
    · rw [setDetectionTime, if_neg (by simp; linarith)]

/-- C6 witness: a realistic millisecond timestamp is accepted by both
setters and read back unchanged. -/
theorem C6_setTimes_witness :
    setOccurrenceTime sampleHeader (.vnum 1415466000000) =
      .ok { sampleHeader with occ := 1415466000000 } ∧
    getOccurrenceTime { sampleHeader with occ := 1415466000000 } = 1415466000000 ∧
    setDetectionTime sampleHeader (.vnum 1415466000000) =
      .ok { sampleHeader with det := 1415466000000 } ∧
    getDetectionTime { sampleHeader with det := 1415466000000 } = 1415466000000 :=
  (C6_setTimes sampleHeader).2.2 1415466000000 (by norm_num)

/-- C7 counterexample: a string whose `stringByteLength` is 12 but which
contains an unpaired trail surrogate is accepted by `setEventId`, yet
`getEventId()` does not return it: the surrogate is encoded as the
replacement character, so the stated round-trip fails. -/
theorem C7_counterexample :
    stringByteLength (0xDC00 :: strUnits "AAAAAAAAA") = 12 ∧
    setEventId sampleHeader (.vstr (0xDC00 :: strUnits "AAAAAAAAA")) =
      .ok { sampleHeader with evId := utf8Encode (0xDC00 :: strUnits "AAAAAAAAA") } ∧
    getEventId
        { sampleHeader with evId := utf8Encode (0xDC00 :: strUnits "AAAAAAAAA") } =
      (0xFFFD :: strUnits "AAAAAAAAA") ∧
    (0xFFFD :: strUnits "AAAAAAAAA") ≠ (0xDC00 :: strUnits "AAAAAAAAA") := by
  refine ⟨by decide, by decide, by decide, by decide⟩

/-- C7 (amended): on a header whose eventId region has its fixed 12-byte
width, `setEventId(id)` fails with the setter's `InvalidArgument` error for
every non-string and for every string whose measured byte length differs
from 12; for every well-formed UTF-16 string of byte length exactly 12 it
succeeds, writes exactly the 12 encoded bytes at offset 23 leaving every
other region — in particular eventSource at offsets 35..46 — unchanged, and
a subsequent `getEventId()` returns the string. -/
theorem C7_setEventId (h : HeaderBuffer) (h12 : h.evId.length = 12) :
    (∀ v : JSVal, (∀ s : List Nat, v ≠ .vstr s) →
      setEventId h v = .error .eventIdInvalid) ∧
    (∀ s : List Nat, stringByteLength s ≠ 12 →
      setEventId h (.vstr s) = .error .eventIdInvalid) ∧
    (∀ s : List Nat, wellFormedUtf16 s = true → stringByteLength s = 12 →
      setEventId h (.vstr s) = .ok { h with evId := utf8Encode s } ∧
      (utf8Encode s).length = 12 ∧
      getEventId { h with evId := utf8Encode s } = s) := by
  refine ⟨?_, ?_, ?_⟩
  · intro v hv
    match v with
    | .vnum q => rfl
    | .vbool b => rfl
    | .vundef => rfl
    | .vstr s => exact absurd rfl (hv s)
  · intro s hs
    rw [setEventId, if_pos hs]
  · intro s hwf hs12
    have hlen : (utf8Encode s).length = 12 := by
      rw [← wf_stringByteLength_eq_encode_length hwf, hs12]
    refine ⟨?_, hlen, ?_⟩
    · rw [setEventId, if_neg (by omega)]
      rw [writeBytes_exact _ _ (by rw [hlen, h12])]
    · rw [getEventId]
      exact utf8_roundtrip hwf

/-- C7 witness: the test's 12-byte identifier round-trips through
`setEventId` and `getEventId`, and `setEventId("short")` fails. -/
theorem C7_setEventId_witness :
    (setEventId sampleHeader (.vstr (strUnits "abcd-12345yz")) =
      .ok { sampleHeader with evId := utf8Encode (strUnits "abcd-12345yz") } ∧
      (utf8Encode (strUnits "abcd-12345yz")).length = 12 ∧
      getEventId
          { sampleHeader with evId := utf8Encode (strUnits "abcd-12345yz") } =
        strUnits "abcd-12345yz") ∧
    setEventId sampleHeader (.vstr (strUnits "short")) = .error .eventIdInvalid :=
  ⟨(C7_setEventId sampleHeader (by decide)).2.2 (strUnits "abcd-12345yz")
      (by decide) (by decide),
   (C7_setEventId sampleHeader (by decide)).2.1 (strUnits "short") (by decide)⟩

/-- C8 counterexample: on the string "ࠀ\uDC00" (a three-byte unit
followed by an unpaired trail surrogate) the claim's per-unit rule gives
3 + 3 = 6 bytes, but `stringByteLength` returns 4: the backward scan
skips the unit before a trail surrogate even when the two do not form a
surrogate pair. -/
theorem C8_counterexample :
    stringByteLength [0x800, 0xDC00] = 4 ∧ utf8SpecLen [0x800, 0xDC00] = 6 := by
  refine ⟨by decide, by decide⟩

/-- C8 (amended): for every sequence of UTF-16 code units in which every
trail surrogate is immediately preceded by a lead surrogate,
`stringByteLength` returns the number of bytes of the UTF-8 encoding under
the claim's contribution rule: the empty string yields 0, each unit below
`0x80` contributes 1 byte, units in `[0x80, 0x7FF]` contribute 2, units in
`[0x800, 0xFFFF]` contribute 3, and a surrogate pair contributes 4 in
total, not 3+3. -/
theorem C8_stringByteLength (str : List Nat) (hcu : isCodeUnits str)
    (htp : trailsPaired str) : stringByteLength str = utf8SpecLen str :=
  stringByteLength_eq_utf8SpecLen str hcu htp

/-- C8 witness: "abc" followed by one surrogate pair measures 3 + 4 bytes
under both the source counter and the specification rule. -/
theorem C8_stringByteLength_witness :
    stringByteLength (strUnits "abc" ++ [0xD83D, 0xDE00]) =
      utf8SpecLen (strUnits "abc" ++ [0xD83D, 0xDE00]) ∧
    stringByteLength (strUnits "abc" ++ [0xD83D, 0xDE00]) = 7 :=
  ⟨C8_stringByteLength (strUnits "abc" ++ [0xD83D, 0xDE00]) (by decide) (by decide),
   by decide⟩

theorem lookup_none_iff (t : List (Nat × List Nat)) (k : Nat) :
    t.lookup k = none ↔ k ∉ t.map Prod.fst := by
  induction t with
  | nil => simp [List.lookup]
  | cons p t ih =>
    obtain ⟨a, v⟩ := p
    by_cases hk : k = a
    · subst hk
      simp [List.lookup]
    · have hba : (k == a) = false := by simp [hk]
      simp only [List.lookup, hba, List.map_cons, List.mem_cons]
      simp [ih, hk]

/-- C9: `getTemporalGranularityName` looks the header's 4-bit granularity
code (byte 0 shifted right 4) up in the external granularity table: when
the code has an entry it returns that entry's name, when it has no entry it
fails (no name is produced) rather than returning garbage, and on every
successfully constructed header the lookup cannot fail. -/
theorem C9_granularityName (h : HeaderBuffer) :
    (∀ name, granularityTable.lookup (h.byte0 >>> 4) = some name →
      getTemporalGranularityName h = some name) ∧
    ((h.byte0 >>> 4) ∉ granularityTable.map Prod.fst →
      getTemporalGranularityName h = none) ∧
    (∀ args, Header args = .ok h → (getTemporalGranularityName h).isSome = true) := by
  refine ⟨?_, ?_, ?_⟩
  · intro name hl
    rw [getTemporalGranularityName]
    exact hl
  · intro hnot
    rw [getTemporalGranularityName]
    exact (lookup_none_iff _ _).mpr hnot
  · intro args hc
    obtain ⟨et0, src0, _, _, hvenum, _, _, hb0, _, _, _, _, _, _, _⟩ :=
      Header_ok_shape hc
    have hg := (validateEnumValue_true_iff _ _).mp hvenum
    simp only [granularityEnumValues, granularityTable, List.map_cons, List.map_nil,
      List.mem_cons, List.not_mem_nil, or_false] at hg
    have hk : ∃ k : Nat, k ≤ 7 ∧ granCode (args.getD 1 .vundef) = k := by
      rcases hg with hv | hv | hv | hv | hv | hv | hv | hv <;> rw [hv]
      · exact ⟨0, by norm_num, by decide⟩
      · exact ⟨1, by norm_num, by decide⟩
      · exact ⟨2, by norm_num, by decide⟩
      · exact ⟨3, by norm_num, by decide⟩
      · exact ⟨4, by norm_num, by decide⟩
      · exact ⟨5, by norm_num, by decide⟩
      · exact ⟨6, by norm_num, by decide⟩
      · exact ⟨7, by norm_num, by decide⟩
    obtain ⟨k, hk7, hgc⟩ := hk
    have hshift : h.byte0 >>> 4 = k := by
      rcases hb0 with hb | ⟨_, hb⟩ <;> rw [hb, hgc] <;> interval_cases k <;> decide
    rw [getTemporalGranularityName, hshift]
    interval_cases k <;> decide

/-- C9 witness: the test header's code resolves to a name, and a header
whose first byte carries the out-of-range code 15 yields no name. -/
theorem C9_granularityName_witness :
    (getTemporalGranularityName sampleHeader).isSome = true ∧
    getTemporalGranularityName { sampleHeader with byte0 := 0xF1 } = none ∧
    getTemporalGranularityName sampleHeader = some (strUnits "second") :=
  ⟨(C9_granularityName sampleHeader).2.2
      [.vstr (strUnits "testEventType"), .vnum 2, .vstr (strUnits "abcd-12345yz")]
      (by decide),
   (C9_granularityName { sampleHeader with byte0 := 0xF1 }).2.1 (by decide),
   by decide⟩

/-- C10 counterexample: with five arguments the two invocation forms
diverge: `new Header(...)` fails the arity check (`arity 5`), while the
plain call forwards only the four named parameters and succeeds. -/
theorem C10_counterexample :
    HeaderNoNew [.vstr (strUnits "t"), .vnum 2, .vstr (strUnits "abcd-12345yz"),
        .vbool false, .vnum 0] ≠
      Header [.vstr (strUnits "t"), .vnum 2, .vstr (strUnits "abcd-12345yz"),
        .vbool false, .vnum 0] ∧
    (HeaderNoNew [.vstr (strUnits "t"), .vnum 2, .vstr (strUnits "abcd-12345yz"),
        .vbool false, .vnum 0]).isOk = true ∧
    Header [.vstr (strUnits "t"), .vnum 2, .vstr (strUnits "abcd-12345yz"),
        .vbool false, .vnum 0] = .error (.arity 5) := by
  refine ⟨by decide, by decide, by decide⟩

/-- C10 (amended): for every invocation with exactly three or four
arguments, invoking `Header` as a plain function behaves identically to
invoking it with `new`: the same error is raised, or an equal header is
returned. -/
theorem C10_noNew (args : List JSVal) (hlen : args.length = 3 ∨ args.length = 4) :
    HeaderNoNew args = Header args := by
  rcases hlen with h3 | h4
  · match args, h3 with
    | [a, b, c], _ =>
      show Header [a, b, c, .vundef] = Header [a, b, c]
      rfl
  · match args, h4 with
    | [a, b, c, d], _ => rfl

/-- C10 witness: the test's three-argument call builds the same header with
and without `new`. -/
theorem C10_noNew_witness :
    HeaderNoNew [.vstr (strUnits "testEventType"), .vnum 2,
        .vstr (strUnits "abcd-12345yz")] =
      Header [.vstr (strUnits "testEventType"), .vnum 2,
        .vstr (strUnits "abcd-12345yz")] :=
  C10_noNew [.vstr (strUnits "testEventType"), .vnum 2,
    .vstr (strUnits "abcd-12345yz")] (Or.inl rfl)
